import Mathlib

/-!
# mysql-syncer: the batched write engine (`src/mysql/client.go`)

A shallow embedding of the statement builder `BulkRequest.bulk` with its helper
`trans`, and of the batch executor `Client.Bulk`.

* Go strings are `String`; a value of type `interface{}` is a `Value`.
* A Go `map[string]interface{}` is the list of its entries (distinct keys); the order
  in which one `range` loop visits the entries is an explicit argument `ord`, any
  permutation of the entries.
* The database handle `*sql.DB` is a `Conn`: for every call it answers with the error
  that call returns (`none` for a nil error).  `bulk` returns the calls it made on the
  connection, in order, together with its own error result.
-/

namespace mysql

/-! ## Data model -/

/-- The Go `error` values handled by the client; a nil error is `none : Option Error`. -/
abbrev Error := String

/-- The call `errors.Trace(err)`: annotates a non-nil error with the call site and
returns a non-nil error. -/
def Trace (err : Error) : Error := "trace: " ++ err

/-- A dynamic value held in an `interface{}`: the nil interface, a Go `string`, an
integer, a boolean, or a value of any other dynamic type, given by its `%v` rendering. -/
inductive Value where
  | nil
  | str (s : String)
  | int (i : Int)
  | bool (b : Bool)
  | other (shown : String)
  deriving DecidableEq, Repr

/-- The rendering `fmt.Sprintf("%v", v)`. -/
def Sprintv : Value → String
  | .nil => "<nil>"
  | .str s => s
  | .int i => toString i
  | .bool b => if b then "true" else "false"
  | .other shown => shown

/-- The function `trans` (client.go 217-227). -/
def trans (v : Value) : String :=
  if v = Value.nil then
    "null"
  else
    match v with
    | .str _ => "\"" ++ Sprintv v ++ "\""
    | _ => Sprintv v

def ActionInsert : String := "insert"
def ActionUpdate : String := "update"
def ActionDelete : String := "delete"

/-- The struct `BulkRequest` (client.go 51-59).  `Data` lists the entries of the map. -/
structure BulkRequest where
  Action : String
  Schema : String
  Table : String
  Data : List (String × Value)
  PkName : String
  PkValue : Value
  deriving DecidableEq, Repr

/-- The keys of a Go map are pairwise distinct. -/
def BulkRequest.IsMap (r : BulkRequest) : Prop := (r.Data.map Prod.fst).Nodup

instance (r : BulkRequest) : Decidable r.IsMap := by
  unfold BulkRequest.IsMap; infer_instance

/-- The database handle: the error returned by `conn.Exec(query)`, by
`conn.Prepare(query)`, and by `stmt.Exec(args...)` on the statement prepared from
`query`. -/
structure Conn where
  Exec : String → Option Error
  Prepare : String → Option Error
  StmtExec : String → List Value → Option Error

/-- The struct `Client` (client.go 14-17). -/
structure Client where
  conn : Conn
  thread : Nat

/-- One call made on the connection. -/
inductive DbCall where
  | Exec (query : String)
  | Prepare (query : String)
  | StmtExec (query : String) (args : List Value)
  | StmtClose (query : String)
  deriving DecidableEq, Repr

/-! ## The statement builder `BulkRequest.bulk` -/

/-- The locals `keys`, `values` of the update branch. -/
structure UpdateAcc where
  keys : List String
  values : List Value

/-- One iteration of the loop at client.go 134-137. -/
def updateStep (acc : UpdateAcc) (kv : String × Value) : UpdateAcc :=
  { keys := acc.keys ++ [kv.1], values := acc.values ++ [kv.2] }

/-- The locals `value`, `fields`, `values`, `fields2` of the insert branch. -/
structure InsertAcc where
  value : List Value
  fields : String
  values : String
  fields2 : String

/-- One iteration of the loop at client.go 174-185. -/
def insertStep (acc : InsertAcc) (kv : String × Value) : InsertAcc :=
  let value := acc.value ++ [kv.2]
  if acc.fields = "" then
    { value := value
      fields := "`" ++ kv.1 ++ "`"
      values := "?"
      fields2 := kv.1 ++ "= ?" }
  else
    { value := value
      fields := acc.fields ++ (",`" ++ kv.1 ++ "`")
      values := acc.values ++ ",?"
      fields2 := acc.fields2 ++ ("," ++ kv.1 ++ "= ?") }

/-- The method `BulkRequest.bulk` (client.go 112-214).  `ord` is the order in which the
`range` loop of this call visits `r.Data`, `buf` the content of the buffer passed in.
The result is the list of calls made on `c.conn` and the returned error; the calls of
`log.Infof` write to the log only and are left out. -/
def BulkRequest.bulk (r : BulkRequest) (ord : List (String × Value)) (buf : String)
    (c : Client) : List DbCall × Option Error :=
  if r.Action = ActionDelete then
    let buf := buf ++ " DELETE FROM "
    let buf := buf ++ (r.Schema ++ "." ++ r.Table)
    let buf := buf ++ (" WHERE " ++ r.PkName ++ " = " ++ trans r.PkValue)
    match c.conn.Exec buf with
    | some err => ([DbCall.Exec buf], some (Trace err))
    | none => ([DbCall.Exec buf], none)
  else if r.Action = ActionUpdate then
    let acc := ord.foldl updateStep { keys := [], values := [] }
    match acc.keys with
    | [] => ([], none)
    | k0 :: rest =>
      let buf := buf ++ " UPDATE `"
      let buf := buf ++ (r.Schema ++ "`.`" ++ r.Table ++ "` SET `")
      let buf := buf ++ (k0 ++ "` = ? ")
      let buf := rest.foldl (fun b v => b ++ (", `" ++ v ++ "` = ?")) buf
      let buf := buf ++ (" WHERE `" ++ r.PkName ++ "` = " ++ trans r.PkValue)
      match c.conn.Prepare buf with
      | some err => ([DbCall.Prepare buf], some (Trace err))
      | none =>
        match c.conn.StmtExec buf acc.values with
        | some err =>
          ([DbCall.Prepare buf, DbCall.StmtExec buf acc.values, DbCall.StmtClose buf],
            some (Trace err))
        | none =>
          ([DbCall.Prepare buf, DbCall.StmtExec buf acc.values, DbCall.StmtClose buf], none)
  else
    let acc := ord.foldl insertStep { value := [], fields := "", values := "", fields2 := "" }
    if acc.value.length = 0 then
      ([], none)
    else
      let value := acc.value.foldl (fun value v => value ++ [v]) acc.value
      let sql := "INSERT INTO " ++ r.Schema ++ "." ++ r.Table ++ " (" ++ acc.fields
        ++ ") VALUES (" ++ acc.values ++ ") ON DUPLICATE KEY UPDATE " ++ acc.fields2
      match c.conn.Prepare sql with
      | some err => ([DbCall.Prepare sql], some (Trace err))
      | none =>
        match c.conn.StmtExec sql value with
        | some err =>
          ([DbCall.Prepare sql, DbCall.StmtExec sql value, DbCall.StmtClose sql],
            some (Trace err))
        | none =>
          ([DbCall.Prepare sql, DbCall.StmtExec sql value, DbCall.StmtClose sql], none)

/-! ## Statement texts of the specification -/

/-- The text `DELETE FROM schema.table WHERE pkName = literal` as the code spells it
(one leading blank). -/
def deleteTemplate (schema table pkName literal : String) : String :=
  " DELETE FROM " ++ schema ++ "." ++ table ++ " WHERE " ++ pkName ++ " = " ++ literal

/-- The SET clause over an explicit column list: every column, quoted in backticks, is
followed by `= ?`; the entries are separated by a comma and a blank. -/
def setClause : List String → String
  | [] => ""
  | k0 :: rest => "`" ++ k0 ++ "` = ? " ++ String.join (rest.map fun k => ", `" ++ k ++ "` = ?")

/-- The text `UPDATE schema.table SET col1 = ?, col2 = ?, ... WHERE pkName = literal` as
the code spells it (schema, table, columns and key name quoted in backticks). -/
def updateTemplate (schema table : String) (cols : List String) (pkName literal : String) :
    String :=
  " UPDATE `" ++ schema ++ "`.`" ++ table ++ "` SET " ++ setClause cols
    ++ " WHERE `" ++ pkName ++ "` = " ++ literal

/-- The text `INSERT INTO schema.table (c1,...,cn) VALUES (?,...,?) ON DUPLICATE KEY
UPDATE c1= ?,...,cn= ?` over an explicit column list (the column list quotes every
column in backticks). -/
def insertTemplate (schema table : String) (cols : List String) : String :=
  "INSERT INTO " ++ schema ++ "." ++ table
    ++ " (" ++ ",".intercalate (cols.map fun k => "`" ++ k ++ "`")
    ++ ") VALUES (" ++ ",".intercalate (List.replicate cols.length "?")
    ++ ") ON DUPLICATE KEY UPDATE " ++ ",".intercalate (cols.map fun k => k ++ "= ?")


/-! ## The batch executor `Client.Bulk`

`Bulk` starts one goroutine per request; the goroutines and the callers of `Bulk` run
interleaved.  The embedding is a transition system: a `World` holds the package-level
channel `m` and the local state of every `Bulk` invocation, and `step` performs the next
statement of the goroutine chosen by a `Pick` (`none` when that statement blocks).

* A buffered channel of capacity `n` is the number of elements it holds: a send blocks
  at `n` elements, a receive blocks at `0`.
* The `sync.WaitGroup` is its counter: `Add(1)` increments it, `Done()` decrements it
  and panics when the counter becomes negative, `Wait()` blocks until it is `0`.
* A panic in any goroutine ends the process: no goroutine takes a further step.
-/

/-- The next statement of a unit of work, the goroutine body at client.go 86-98. -/
inductive UnitPc where
  /-- Line 87, `wg.Add(1)`. -/
  | add
  /-- Line 91, `req.bulk(&bufs[i], c)` on a fresh buffer. -/
  | call
  /-- Line 92, `<-chans` in the branch `err != nil`. -/
  | errRecv (err : Error)
  /-- Line 93, `wg.Done()` in the branch `err != nil`. -/
  | errDone (err : Error)
  /-- Line 94, `ddi = errors.Trace(err)`. -/
  | errSet (err : Error)
  /-- Line 96, `wg.Done()`. -/
  | done
  /-- Line 97, `<-chans`. -/
  | recv
  /-- The goroutine has returned. -/
  | finished
  deriving DecidableEq, Repr

/-- The next statement of the goroutine that called `Bulk` (client.go 66-110). -/
inductive MainPc where
  /-- Line 69, `m <- true`. -/
  | acquire
  /-- Line 84, `chans <- true` in the iteration for `reqs[i]`. -/
  | loop (i : Nat)
  /-- Line 86, the `go` statement of the iteration for `reqs[i]`. -/
  | spawn (i : Nat)
  /-- Line 101, `wg.Wait()`. -/
  | wait
  /-- Line 102, `if ddi != nil`. -/
  | check
  /-- Line 107, `<-m`. -/
  | release
  /-- The call has returned `(nil, err)`. -/
  | returned (err : Option Error)
  deriving DecidableEq, Repr

/-- One invocation of `Bulk`: its argument, its next statement, its locals `chans`
(number of buffered elements), `wg` (counter), `ddi`, and the goroutines it has started
(`units[i]` runs `reqs[i]`). -/
structure Call where
  reqs : List BulkRequest
  pc : MainPc
  chans : Nat
  wg : Int
  ddi : Option Error
  units : List UnitPc
  deriving DecidableEq, Repr

/-- The process: the channel `m` (number of buffered elements, capacity 1), the `Bulk`
invocations, whether a goroutine has panicked, and the calls made on the connection so
far, each with the invocation and the unit that made it. -/
structure World where
  m : Nat
  calls : List Call
  panicked : Bool
  log : List (Nat × Nat × DbCall)
  deriving DecidableEq, Repr

/-- The scheduler's choice: the caller of invocation `k` runs its next statement; unit
`i` of invocation `k` runs its next statement other than the call of `bulk`; unit `i` of
invocation `k` runs `req.bulk`, its `range` loop visiting `Data` in the order `ord`. -/
inductive Pick where
  | main (k : Nat)
  | unit (k i : Nat)
  | exec (k i : Nat) (ord : List (String × Value))
  deriving DecidableEq, Repr

/-- The statement reached when the `for` loop of line 83 arrives at index `i`. -/
def Call.loopHead (x : Call) (i : Nat) : MainPc :=
  if i < x.reqs.length then MainPc.loop i else MainPc.wait

/-- A new invocation of `Bulk reqs`, about to run line 69. -/
def Call.enter (reqs : List BulkRequest) : Call :=
  { reqs := reqs, pc := MainPc.acquire, chans := 0, wg := 0, ddi := none, units := [] }

/-- One statement of the caller's goroutine; the first component is the channel `m`. -/
def stepMain (c : Client) (m : Nat) (x : Call) : Option (Nat × Call) :=
  match x.pc with
  | .acquire =>
    if m < 1 then some (m + 1, { x with pc := x.loopHead 0 }) else none
  | .loop i =>
    if x.chans < c.thread then some (m, { x with chans := x.chans + 1, pc := MainPc.spawn i })
    else none
  | .spawn i =>
    some (m, { x with units := x.units ++ [UnitPc.add], pc := x.loopHead (i + 1) })
  | .wait =>
    if x.wg = 0 then some (m, { x with pc := MainPc.check }) else none
  | .check =>
    match x.ddi with
    | some err => some (m, { x with pc := MainPc.returned (some err) })
    | none => some (m, { x with pc := MainPc.release })
  | .release =>
    if 0 < m then some (m - 1, { x with pc := MainPc.returned none }) else none
  | .returned _ => none

/-- One statement of unit `i` other than the call of `bulk`; the second component tells
whether the statement panicked. -/
def stepUnit (x : Call) (i : Nat) : Option (Call × Bool) :=
  match x.units.get? i with
  | none => none
  | some pc =>
    match pc with
    | .add => some ({ x with wg := x.wg + 1, units := x.units.set i UnitPc.call }, false)
    | .call => none
    | .errRecv err =>
      if 0 < x.chans then
        some ({ x with chans := x.chans - 1, units := x.units.set i (UnitPc.errDone err) }, false)
      else none
    | .errDone err =>
      if x.wg - 1 < 0 then some ({ x with wg := x.wg - 1 }, true)
      else some ({ x with wg := x.wg - 1, units := x.units.set i (UnitPc.errSet err) }, false)
    | .errSet err =>
      some ({ x with ddi := some (Trace err), units := x.units.set i UnitPc.done }, false)
    | .done =>
      if x.wg - 1 < 0 then some ({ x with wg := x.wg - 1 }, true)
      else some ({ x with wg := x.wg - 1, units := x.units.set i UnitPc.recv }, false)
    | .recv =>
      if 0 < x.chans then
        some ({ x with chans := x.chans - 1, units := x.units.set i UnitPc.finished }, false)
      else none
    | .finished => none

/-- Unit `i` runs line 91: `req.bulk` on an empty buffer, visiting `Data` in the order
`ord`.  The result is the invocation afterwards and the calls made on the connection. -/
def execUnit (c : Client) (x : Call) (i : Nat) (ord : List (String × Value)) :
    Option (Call × List DbCall) :=
  match x.units.get? i, x.reqs.get? i with
  | some UnitPc.call, some req =>
    if ord.Perm req.Data then
      match req.bulk ord "" c with
      | (made, some err) => some ({ x with units := x.units.set i (UnitPc.errRecv err) }, made)
      | (made, none) => some ({ x with units := x.units.set i UnitPc.done }, made)
    else none
  | _, _ => none

/-- One step of the process under the client `c`. -/
def step (c : Client) (w : World) (p : Pick) : Option World :=
  if w.panicked then none
  else
    match p with
    | .main k =>
      match w.calls.get? k with
      | none => none
      | some x =>
        match stepMain c w.m x with
        | none => none
        | some (m, y) => some { w with m := m, calls := w.calls.set k y }
    | .unit k i =>
      match w.calls.get? k with
      | none => none
      | some x =>
        match stepUnit x i with
        | none => none
        | some (y, panicked) => some { w with calls := w.calls.set k y, panicked := panicked }
    | .exec k i ord =>
      match w.calls.get? k with
      | none => none
      | some x =>
        match execUnit c x i ord with
        | none => none
        | some (y, made) =>
          some { w with calls := w.calls.set k y, log := w.log ++ made.map fun d => (k, i, d) }

/-- The process after the steps of a schedule, `none` when a chosen step is blocked. -/
def run (c : Client) : World → List Pick → Option World
  | w, [] => some w
  | w, p :: ps =>
    match step c w p with
    | none => none
    | some w1 => run c w1 ps

/-- The process in which the batches `bs` are each passed to one call of `Bulk`. -/
def World.start (bs : List (List BulkRequest)) : World :=
  { m := 0, calls := bs.map Call.enter, panicked := false, log := [] }

/-- What invocation `k` has returned, `none` while it has not returned. -/
def World.result (w : World) (k : Nat) : Option (Option Error) :=
  match w.calls.get? k with
  | some x =>
    match x.pc with
    | .returned err => some err
    | _ => none
  | none => none

/-- The units of invocation `k`, by their next statement. -/
def World.unitsOf (w : World) (k : Nat) : List UnitPc :=
  match w.calls.get? k with
  | some x => x.units
  | none => []

/-- The number of units of invocation `k` that have been started and have not returned. -/
def World.inFlight (w : World) (k : Nat) : Nat :=
  ((w.unitsOf k).filter fun pc => pc ≠ UnitPc.finished).length

/-- The invocation and unit index of every call made on the connection, in order. -/
def World.order (w : World) : List (Nat × Nat) := w.log.map fun e => (e.1, e.2.1)

/-- Whether an invocation is between its `m <- true` and its `<-m`: it has run line 69
and has not run line 107 (a call that has returned through line 103 never runs it). -/
def Call.holdsGate (x : Call) : Bool :=
  match x.pc with
  | .acquire => false
  | .returned none => false
  | _ => true

/-! ## Sample inputs -/

/-- A connection on which every call succeeds. -/
def okConn : Conn :=
  { Exec := fun _ => none, Prepare := fun _ => none, StmtExec := fun _ _ => none }

/-- A connection on which `conn.Exec` fails; preparing and executing statements succeed. -/
def noExecConn : Conn :=
  { Exec := fun _ => some "exec failed", Prepare := fun _ => none, StmtExec := fun _ _ => none }

def sampleInsert : BulkRequest :=
  { Action := "insert", Schema := "s", Table := "t",
    Data := [("name", Value.str "a"), ("age", Value.int 7)], PkName := "id",
    PkValue := Value.int 1 }

def sampleUpdate : BulkRequest :=
  { Action := "update", Schema := "s", Table := "t",
    Data := [("name", Value.str "a"), ("age", Value.int 7)], PkName := "id",
    PkValue := Value.str "5" }

def sampleDelete : BulkRequest :=
  { Action := "delete", Schema := "s", Table := "t", Data := [], PkName := "id",
    PkValue := Value.int 5 }

def sampleDeleteWithData : BulkRequest :=
  { Action := "delete", Schema := "s", Table := "t",
    Data := [("name", Value.str "a"), ("age", Value.int 7)], PkName := "id",
    PkValue := Value.nil }

def sampleNoData : BulkRequest :=
  { Action := "replace", Schema := "s", Table := "t", Data := [], PkName := "id",
    PkValue := Value.nil }

/-! ## Auxiliary facts on strings and folds -/

theorem foldl_append_acc (acc : String) (l : List String) :
    l.foldl (fun r s => r ++ s) acc = acc ++ String.join l := by
  induction l generalizing acc with
  | nil => simp [String.join]
  | cons a l ih =>
    have h1 := ih (acc ++ a)
    have h2 := ih ("" ++ a)
    simp only [String.join, List.foldl_cons] at h1 h2 ⊢
    rw [h1, h2, String.empty_append, String.append_assoc]

theorem foldl_set_eq (f : String → String) (buf : String) (rest : List String) :
    rest.foldl (fun b v => b ++ f v) buf = buf ++ String.join (rest.map f) := by
  rw [← foldl_append_acc, List.foldl_map]

theorem foldl_updateStep (ord : List (String × Value)) (acc : UpdateAcc) :
    ord.foldl updateStep acc
      = { keys := acc.keys ++ ord.map Prod.fst, values := acc.values ++ ord.map Prod.snd } := by
  induction ord generalizing acc with
  | nil => simp
  | cons kv ord ih => simp [ih, updateStep]

theorem foldl_snoc_self (init l : List Value) :
    l.foldl (fun value v => value ++ [v]) init = init ++ l := by
  induction l generalizing init with
  | nil => simp
  | cons a l ih => simp [ih]

theorem append_ne_empty (s t : String) (h : 0 < t.length) : s ++ t ≠ "" := by
  intro he
  have := congrArg String.length he
  rw [String.length_append] at this
  simp at this
  omega

theorem lit_append (a b c : String) (x : String) (h : a ++ b = c) : c ++ x = a ++ (b ++ x) := by
  rw [← String.append_assoc, h]

theorem foldl_insertStep (rest : List (String × Value)) (acc : InsertAcc)
    (h : acc.fields ≠ "") :
    rest.foldl insertStep acc
      = { value := acc.value ++ rest.map Prod.snd
          fields := String.intercalate.go acc.fields ","
            (rest.map fun kv => "`" ++ kv.1 ++ "`")
          values := String.intercalate.go acc.values "," (List.replicate rest.length "?")
          fields2 := String.intercalate.go acc.fields2 ","
            (rest.map fun kv => kv.1 ++ "= ?") } := by
  induction rest generalizing acc with
  | nil => simp [String.intercalate.go]
  | cons kv rest ih =>
    have hne : (insertStep acc kv).fields ≠ "" := by
      simp only [insertStep, if_neg h]
      apply append_ne_empty
      rw [String.length_append]
      have : 0 < ("`" : String).length := by decide
      omega
    have e1 : acc.fields ++ (",`" ++ kv.1 ++ "`") = acc.fields ++ "," ++ ("`" ++ kv.1 ++ "`") := by
      simp only [String.append_assoc]
      rw [lit_append "," "`" ",`" _ (by decide)]
    have e2 : acc.fields2 ++ ("," ++ kv.1 ++ "= ?") = acc.fields2 ++ "," ++ (kv.1 ++ "= ?") := by
      simp only [String.append_assoc]
    have e3 : acc.values ++ ",?" = acc.values ++ "," ++ "?" := by
      rw [String.append_assoc]; rfl
    rw [List.foldl_cons, ih _ hne]
    simp only [insertStep, if_neg h, List.map_cons, List.length_cons, List.replicate_succ,
      String.intercalate.go, List.append_assoc, List.singleton_append, e1, e2, e3]


theorem lookup_of_mem (l : List (String × Value)) (hl : (l.map Prod.fst).Nodup)
    (k : String) (v : Value) (h : (k, v) ∈ l) : l.lookup k = some v := by
  induction l with
  | nil => simp at h
  | cons p l ih =>
    obtain ⟨k1, v1⟩ := p
    simp only [List.map_cons, List.nodup_cons] at hl
    rw [List.lookup_cons]
    rcases List.mem_cons.1 h with heq | hmem
    · injection heq with hk hv
      subst hk; subst hv
      simp
    · have hne : k ≠ k1 := by
        intro he
        apply hl.1
        rw [← he]
        exact List.mem_map_of_mem Prod.fst hmem
      have hb : (k == k1) = false := by simpa using hne
      rw [hb]
      exact ih hl.2 hmem

theorem values_are_lookups (data ord : List (String × Value))
    (hmap : (data.map Prod.fst).Nodup) (hord : ord.Perm data) :
    (ord.map Prod.snd).map some = (ord.map Prod.fst).map (fun k => data.lookup k) := by
  rw [List.map_map, List.map_map]
  apply List.map_congr_left
  intro p hp
  obtain ⟨k, v⟩ := p
  simp only [Function.comp]
  exact (lookup_of_mem data hmap k v (hord.subset hp)).symm

theorem bulk_insert_eq (r : BulkRequest) (c : Client) (kv : String × Value)
    (rest : List (String × Value))
    (hD : r.Action ≠ ActionDelete) (hU : r.Action ≠ ActionUpdate) :
    r.bulk (kv :: rest) "" c =
      (match c.conn.Prepare (insertTemplate r.Schema r.Table ((kv :: rest).map Prod.fst)) with
      | some err =>
        ([DbCall.Prepare (insertTemplate r.Schema r.Table ((kv :: rest).map Prod.fst))],
          some (Trace err))
      | none =>
        ([DbCall.Prepare (insertTemplate r.Schema r.Table ((kv :: rest).map Prod.fst)),
          DbCall.StmtExec (insertTemplate r.Schema r.Table ((kv :: rest).map Prod.fst))
            ((kv :: rest).map Prod.snd ++ (kv :: rest).map Prod.snd),
          DbCall.StmtClose (insertTemplate r.Schema r.Table ((kv :: rest).map Prod.fst))],
          match c.conn.StmtExec (insertTemplate r.Schema r.Table ((kv :: rest).map Prod.fst))
            ((kv :: rest).map Prod.snd ++ (kv :: rest).map Prod.snd) with
          | some err => some (Trace err)
          | none => none)) := by
  have hne : (insertStep { value := [], fields := "", values := "", fields2 := "" } kv).fields
      ≠ "" := by
    simp only [insertStep, if_true]
    apply append_ne_empty
    decide
  have hfold := foldl_insertStep rest _ hne
  simp only [BulkRequest.bulk, if_neg hD, if_neg hU, List.foldl_cons, hfold, foldl_snoc_self]
  simp only [insertStep, if_true, List.nil_append, List.length_append, List.length_cons,
    List.length_map, List.length_nil, List.singleton_append]
  rw [if_neg (by omega)]
  simp only [insertTemplate, String.intercalate, List.map_cons, List.length_cons,
    List.replicate_succ, List.map_map, Function.comp_def, List.length_map]
  cases h1 : c.conn.Prepare _ with
  | some err => rfl
  | none =>
    simp only []
    cases h2 : c.conn.StmtExec _ _ <;> rfl


theorem bulk_update_eq (r : BulkRequest) (c : Client) (kv : String × Value)
    (rest : List (String × Value)) (hU : r.Action = ActionUpdate) :
    r.bulk (kv :: rest) "" c =
      (match c.conn.Prepare (updateTemplate r.Schema r.Table ((kv :: rest).map Prod.fst)
          r.PkName (trans r.PkValue)) with
      | some err =>
        ([DbCall.Prepare (updateTemplate r.Schema r.Table ((kv :: rest).map Prod.fst)
            r.PkName (trans r.PkValue))], some (Trace err))
      | none =>
        ([DbCall.Prepare (updateTemplate r.Schema r.Table ((kv :: rest).map Prod.fst)
            r.PkName (trans r.PkValue)),
          DbCall.StmtExec (updateTemplate r.Schema r.Table ((kv :: rest).map Prod.fst)
            r.PkName (trans r.PkValue)) ((kv :: rest).map Prod.snd),
          DbCall.StmtClose (updateTemplate r.Schema r.Table ((kv :: rest).map Prod.fst)
            r.PkName (trans r.PkValue))],
          match c.conn.StmtExec (updateTemplate r.Schema r.Table ((kv :: rest).map Prod.fst)
            r.PkName (trans r.PkValue)) ((kv :: rest).map Prod.snd) with
          | some err => some (Trace err)
          | none => none)) := by
  have hD : r.Action ≠ ActionDelete := by rw [hU]; decide
  have htext : List.foldl (fun b v => b ++ (", `" ++ v ++ "` = ?"))
        ("" ++ " UPDATE `" ++ (r.Schema ++ "`.`" ++ r.Table ++ "` SET `") ++ (kv.1 ++ "` = ? "))
        (rest.map Prod.fst) ++ (" WHERE `" ++ r.PkName ++ "` = " ++ trans r.PkValue)
      = updateTemplate r.Schema r.Table ((kv :: rest).map Prod.fst) r.PkName
          (trans r.PkValue) := by
    rw [foldl_set_eq (fun v => ", `" ++ v ++ "` = ?")]
    simp only [updateTemplate, setClause, List.map_cons, String.empty_append,
      String.append_assoc]
    rw [lit_append "` SET " "`" "` SET `" _ (by decide)]
  simp only [BulkRequest.bulk, if_neg hD, if_pos hU, foldl_updateStep, List.nil_append,
    List.map_cons, htext]
  cases h1 : c.conn.Prepare _ with
  | some err => rfl
  | none =>
    simp only []
    cases h2 : c.conn.StmtExec _ _ <;> rfl

theorem bulk_delete_eq (r : BulkRequest) (c : Client) (ord : List (String × Value))
    (hD : r.Action = ActionDelete) :
    r.bulk ord "" c =
      ([DbCall.Exec (deleteTemplate r.Schema r.Table r.PkName (trans r.PkValue))],
        match c.conn.Exec (deleteTemplate r.Schema r.Table r.PkName (trans r.PkValue)) with
        | some err => some (Trace err)
        | none => none) := by
  have htext : "" ++ " DELETE FROM " ++ (r.Schema ++ "." ++ r.Table)
        ++ (" WHERE " ++ r.PkName ++ " = " ++ trans r.PkValue)
      = deleteTemplate r.Schema r.Table r.PkName (trans r.PkValue) := by
    simp only [deleteTemplate, String.empty_append, String.append_assoc]
  simp only [BulkRequest.bulk, if_pos hD, htext]
  cases h1 : c.conn.Exec _ <;> rfl

theorem bulk_empty_eq (r : BulkRequest) (c : Client) (buf : String)
    (hD : r.Action ≠ ActionDelete) : r.bulk [] buf c = ([], none) := by
  by_cases hU : r.Action = ActionUpdate
  · simp only [BulkRequest.bulk, if_neg hD, if_pos hU, List.foldl_nil]
  · simp only [BulkRequest.bulk, if_neg hD, if_neg hU, List.foldl_nil, List.length_nil,
      if_true]


/-! ## The statement builder: claims C1, C2, C3, C9, C10 -/

/-- Claim C1: for a request whose Action is neither delete nor update and whose Data has
n >= 1 columns, whatever the order `ord` in which the Data map is iterated, `bulk`
prepares the upsert text over the column list `c1..cn = ord.map fst` (the same list, in
the same order, in the column list and in the ON DUPLICATE KEY clause, with n
placeholders in the VALUES clause); `c1..cn` holds every Data column exactly once; and
on the prepared statement it binds `v1..vn,v1..vn`, of length 2n, with `vi = Data[ci]`. -/
theorem insert_statement (r : BulkRequest) (c : Client) (ord : List (String × Value))
    (hD : r.Action ≠ ActionDelete) (hU : r.Action ≠ ActionUpdate) (hmap : r.IsMap)
    (hord : ord.Perm r.Data) (hn : 1 ≤ r.Data.length) :
    (ord.map Prod.fst).Nodup
    ∧ (ord.map Prod.fst).Perm (r.Data.map Prod.fst)
    ∧ (ord.map Prod.fst).length = r.Data.length
    ∧ (ord.map Prod.snd).map some = (ord.map Prod.fst).map (fun k => r.Data.lookup k)
    ∧ (ord.map Prod.snd ++ ord.map Prod.snd).length = 2 * r.Data.length
    ∧ (r.bulk ord "" c).1.head?
        = some (DbCall.Prepare (insertTemplate r.Schema r.Table (ord.map Prod.fst)))
    ∧ (c.conn.Prepare (insertTemplate r.Schema r.Table (ord.map Prod.fst)) = none →
        (r.bulk ord "" c).1
          = [DbCall.Prepare (insertTemplate r.Schema r.Table (ord.map Prod.fst)),
              DbCall.StmtExec (insertTemplate r.Schema r.Table (ord.map Prod.fst))
                (ord.map Prod.snd ++ ord.map Prod.snd),
              DbCall.StmtClose (insertTemplate r.Schema r.Table (ord.map Prod.fst))]) := by
  have hperm : (ord.map Prod.fst).Perm (r.Data.map Prod.fst) := hord.map Prod.fst
  have hlen : ord.length = r.Data.length := hord.length_eq
  refine ⟨hperm.nodup_iff.2 hmap, hperm, by simpa using hlen,
    values_are_lookups r.Data ord hmap hord, by simp [hlen]; omega, ?_, ?_⟩
  · cases ord with
    | nil => simp at hlen; omega
    | cons kv rest =>
      rw [bulk_insert_eq r c kv rest hD hU]
      cases c.conn.Prepare _ <;> rfl
  · intro hp
    cases ord with
    | nil => simp at hlen; omega
    | cons kv rest =>
      rw [bulk_insert_eq r c kv rest hD hU, hp]

theorem insert_statement_witness :
    (sampleInsert.bulk [("age", Value.int 7), ("name", Value.str "a")] ""
        { conn := okConn, thread := 1 }).1
      = [DbCall.Prepare
            "INSERT INTO s.t (`age`,`name`) VALUES (?,?) ON DUPLICATE KEY UPDATE age= ?,name= ?",
          DbCall.StmtExec
            "INSERT INTO s.t (`age`,`name`) VALUES (?,?) ON DUPLICATE KEY UPDATE age= ?,name= ?"
            [Value.int 7, Value.str "a", Value.int 7, Value.str "a"],
          DbCall.StmtClose
            "INSERT INTO s.t (`age`,`name`) VALUES (?,?) ON DUPLICATE KEY UPDATE age= ?,name= ?"] :=
  (insert_statement sampleInsert { conn := okConn, thread := 1 }
    [("age", Value.int 7), ("name", Value.str "a")] (by decide) (by decide) (by decide)
    (by decide) (by decide)).2.2.2.2.2.2 rfl

/-- Claim C2: for a request with Action update and Data of n >= 1 columns, whatever the
order `ord` in which the Data map is iterated, `bulk` prepares the UPDATE text on
Schema.Table whose SET clause names the columns `ord.map fst` (every Data column exactly
once), each followed by one placeholder, and which ends with the WHERE clause on PkName
and `trans PkValue`; on the prepared statement it binds n parameters, the i-th being the
Data value of the i-th column of the SET clause. -/
theorem update_statement (r : BulkRequest) (c : Client) (ord : List (String × Value))
    (hU : r.Action = ActionUpdate) (hmap : r.IsMap)
    (hord : ord.Perm r.Data) (hn : 1 ≤ r.Data.length) :
    (ord.map Prod.fst).Nodup
    ∧ (ord.map Prod.fst).Perm (r.Data.map Prod.fst)
    ∧ (ord.map Prod.snd).length = r.Data.length
    ∧ (ord.map Prod.snd).map some = (ord.map Prod.fst).map (fun k => r.Data.lookup k)
    ∧ (r.bulk ord "" c).1.head?
        = some (DbCall.Prepare
            (updateTemplate r.Schema r.Table (ord.map Prod.fst) r.PkName (trans r.PkValue)))
    ∧ (c.conn.Prepare
          (updateTemplate r.Schema r.Table (ord.map Prod.fst) r.PkName (trans r.PkValue))
        = none →
        (r.bulk ord "" c).1
          = [DbCall.Prepare
                (updateTemplate r.Schema r.Table (ord.map Prod.fst) r.PkName (trans r.PkValue)),
              DbCall.StmtExec
                (updateTemplate r.Schema r.Table (ord.map Prod.fst) r.PkName (trans r.PkValue))
                (ord.map Prod.snd),
              DbCall.StmtClose
                (updateTemplate r.Schema r.Table (ord.map Prod.fst) r.PkName
                  (trans r.PkValue))]) := by
  have hperm : (ord.map Prod.fst).Perm (r.Data.map Prod.fst) := hord.map Prod.fst
  have hlen : ord.length = r.Data.length := hord.length_eq
  refine ⟨hperm.nodup_iff.2 hmap, hperm, by simpa using hlen,
    values_are_lookups r.Data ord hmap hord, ?_, ?_⟩
  · cases ord with
    | nil => simp at hlen; omega
    | cons kv rest =>
      rw [bulk_update_eq r c kv rest hU]
      cases c.conn.Prepare _ <;> rfl
  · intro hp
    cases ord with
    | nil => simp at hlen; omega
    | cons kv rest =>
      rw [bulk_update_eq r c kv rest hU, hp]

theorem update_statement_witness :
    (sampleUpdate.bulk [("age", Value.int 7), ("name", Value.str "a")] ""
        { conn := okConn, thread := 1 }).1
      = [DbCall.Prepare " UPDATE `s`.`t` SET `age` = ? , `name` = ? WHERE `id` = \"5\"",
          DbCall.StmtExec " UPDATE `s`.`t` SET `age` = ? , `name` = ? WHERE `id` = \"5\""
            [Value.int 7, Value.str "a"],
          DbCall.StmtClose " UPDATE `s`.`t` SET `age` = ? , `name` = ? WHERE `id` = \"5\""] :=
  (update_statement sampleUpdate { conn := okConn, thread := 1 }
    [("age", Value.int 7), ("name", Value.str "a")] (by decide) (by decide)
    (by decide) (by decide)).2.2.2.2.2 rfl

/-- Claim C3: for a request with Action delete, whatever its Data holds and in whatever
order it is visited, `bulk` makes exactly one call on the connection, `conn.Exec` of the
text `DELETE FROM Schema.Table WHERE PkName = L` with no bound parameter, where
`L = trans PkValue` is `null` for the nil value, the string between one pair of double
quotes for a string, and the default rendering otherwise (`5` for the integer 5). -/
theorem delete_statement (r : BulkRequest) (c : Client) (ord : List (String × Value))
    (hD : r.Action = ActionDelete) :
    (r.bulk ord "" c).1
        = [DbCall.Exec (deleteTemplate r.Schema r.Table r.PkName (trans r.PkValue))]
    ∧ trans Value.nil = "null"
    ∧ (∀ s : String, trans (Value.str s) = "\"" ++ s ++ "\"")
    ∧ (∀ v : Value, v ≠ Value.nil → (∀ s : String, v ≠ Value.str s) → trans v = Sprintv v)
    ∧ trans (Value.str "5") = "\"5\""
    ∧ trans (Value.int 5) = "5" := by
  refine ⟨by rw [bulk_delete_eq r c ord hD], rfl, fun s => rfl, ?_, by decide, by decide⟩
  intro v hnil hstr
  cases v with
  | nil => exact absurd rfl hnil
  | str s => exact absurd rfl (hstr s)
  | int i => rfl
  | bool b => rfl
  | other shown => rfl

theorem delete_statement_witness :
    (sampleDelete.bulk [] "" { conn := okConn, thread := 1 }).1
      = [DbCall.Exec " DELETE FROM s.t WHERE id = 5"] :=
  (delete_statement sampleDelete { conn := okConn, thread := 1 } [] (by decide)).1

/-- Claim C9: for a request whose Action is not delete and whose Data is empty, `bulk`
returns a nil error and makes no call on the connection, whatever Schema, Table, PkName,
PkValue, the buffer and the connection are. -/
theorem empty_data_is_noop (r : BulkRequest) (c : Client) (ord : List (String × Value))
    (buf : String) (hD : r.Action ≠ ActionDelete) (hE : r.Data = [])
    (hord : ord.Perm r.Data) :
    r.bulk ord buf c = ([], none) := by
  rw [hE] at hord
  rw [List.perm_nil.1 hord]
  exact bulk_empty_eq r c buf hD

theorem empty_data_is_noop_witness :
    sampleNoData.bulk [] "" { conn := noExecConn, thread := 1 } = ([], none) :=
  empty_data_is_noop sampleNoData { conn := noExecConn, thread := 1 } [] "" (by decide) rfl
    (List.Perm.refl _)

/-- Claim C10 fails on the code: two builds of the same update request, and of the same
insert request, that visit the two Data columns in different orders prepare different
texts. -/
theorem bulk_depends_on_iteration_order :
    ([("age", Value.int 7), ("name", Value.str "a")] : List (String × Value)).Perm
        sampleUpdate.Data
    ∧ (sampleUpdate.bulk sampleUpdate.Data "" { conn := okConn, thread := 1 }).1
        ≠ (sampleUpdate.bulk [("age", Value.int 7), ("name", Value.str "a")] ""
            { conn := okConn, thread := 1 }).1
    ∧ (sampleInsert.bulk sampleInsert.Data "" { conn := okConn, thread := 1 }).1
        ≠ (sampleInsert.bulk [("age", Value.int 7), ("name", Value.str "a")] ""
            { conn := okConn, thread := 1 }).1 := by
  decide

/-- Claim C10 as amended: the calls `bulk` makes and the error it returns do not depend
on the order in which the Data map is iterated when Action is delete or when Data has at
most one column. -/
theorem bulk_order_independent (r : BulkRequest) (c : Client)
    (ord1 ord2 : List (String × Value)) (h1 : ord1.Perm r.Data) (h2 : ord2.Perm r.Data)
    (h : r.Action = ActionDelete ∨ r.Data.length ≤ 1) :
    r.bulk ord1 "" c = r.bulk ord2 "" c := by
  rcases h with hD | hlen
  · rw [bulk_delete_eq r c ord1 hD, bulk_delete_eq r c ord2 hD]
  · match hd : r.Data, hlen with
    | [], _ =>
      rw [hd] at h1 h2
      rw [List.perm_nil.1 h1, List.perm_nil.1 h2]
    | [a], _ =>
      rw [hd] at h1 h2
      rw [List.perm_singleton.1 h1, List.perm_singleton.1 h2]
    | _ :: _ :: _, hl => simp at hl

theorem bulk_order_independent_witness :
    sampleDeleteWithData.bulk [("age", Value.int 7), ("name", Value.str "a")] ""
        { conn := okConn, thread := 1 }
      = sampleDeleteWithData.bulk sampleDeleteWithData.Data "" { conn := okConn, thread := 1 } :=
  bulk_order_independent sampleDeleteWithData { conn := okConn, thread := 1 }
    [("age", Value.int 7), ("name", Value.str "a")] sampleDeleteWithData.Data
    (by decide) (List.Perm.refl _) (Or.inl (by decide))

/-! ## The batch executor: claims C4 to C8 -/

/-- Claim C4 on the code: for the batch of one delete request whose `conn.Exec` fails and
one worker, (1) running the caller up to `wg.Wait()` and then the unit to its end makes
the second `wg.Done()` of the failing unit panic while `Bulk` has not returned, and
(2) when the caller runs first, `Bulk` returns `(nil, nil)` and the unit fails
afterwards. -/
theorem Bulk_failing_unit_panics :
    (run { conn := noExecConn, thread := 1 } (World.start [[sampleDelete]])
        [Pick.main 0, Pick.main 0, Pick.main 0, Pick.unit 0 0, Pick.exec 0 0 [],
          Pick.unit 0 0, Pick.unit 0 0, Pick.unit 0 0, Pick.unit 0 0]).map
        (fun w => (w.panicked, w.result 0, w.unitsOf 0))
      = some (true, none, [UnitPc.done])
    ∧ (run { conn := noExecConn, thread := 1 } (World.start [[sampleDelete]])
        [Pick.main 0, Pick.main 0, Pick.main 0, Pick.main 0, Pick.main 0, Pick.main 0,
          Pick.unit 0 0, Pick.exec 0 0 []]).map
        (fun w => (w.panicked, w.result 0, w.unitsOf 0))
      = some (false, some none, [UnitPc.errRecv "trace: exec failed"]) := by
  decide

/-- Claim C5 on the code: for the batch of one failing delete request, once the unit has
stored its error, `Bulk` returns that error through line 103 and the channel `m` still
holds its element; the first statement of a second call of `Bulk` is then blocked. -/
theorem Bulk_error_return_keeps_gate :
    (run { conn := noExecConn, thread := 1 } (World.start [[sampleDelete], []])
        [Pick.main 0, Pick.main 0, Pick.main 0, Pick.unit 0 0, Pick.exec 0 0 [],
          Pick.unit 0 0, Pick.unit 0 0, Pick.unit 0 0, Pick.main 0, Pick.main 0]).map
        (fun w => (w.result 0, w.m, w.panicked, step { conn := noExecConn, thread := 1 } w
          (Pick.main 1)))
      = some (some (some "trace: trace: exec failed"), 1, false, none) := by
  decide

/-- Claim C6 on the code: for the batch of one insert request, the caller alone can run
from line 69 to the return of `(nil, nil)`, `wg.Wait()` passing at counter 0 because the
unit has not yet run its `wg.Add(1)`: when `Bulk` has returned, the unit is started and
has run no statement, and no call has been made on the connection. -/
theorem Bulk_returns_before_unit_runs :
    (run { conn := okConn, thread := 1 } (World.start [[sampleInsert]])
        [Pick.main 0, Pick.main 0, Pick.main 0, Pick.main 0, Pick.main 0, Pick.main 0]).map
        (fun w => (w.result 0, w.unitsOf 0, w.inFlight 0, w.order))
      = some (some none, [UnitPc.add], 1, []) := by
  decide

/-- Claim C7 on the code, one worker: (1) in the batch of two requests whose first unit
fails, the failing unit gives its permit back at line 92, before its remaining
statements, and the second unit is started: two units are started and not finished;
(2) in the batch of three requests whose first unit fails, the failing unit receives
from `chans` a second time at line 97, and the second and the third unit are both about
to run their statement. -/
theorem Bulk_exceeds_worker_count :
    (run { conn := noExecConn, thread := 1 } (World.start [[sampleDelete, sampleInsert]])
        [Pick.main 0, Pick.main 0, Pick.main 0, Pick.unit 0 0, Pick.exec 0 0 [],
          Pick.unit 0 0, Pick.main 0, Pick.main 0]).map
        (fun w => (w.unitsOf 0, w.inFlight 0))
      = some ([UnitPc.errDone "trace: exec failed", UnitPc.add], 2)
    ∧ (run { conn := noExecConn, thread := 1 }
        (World.start [[sampleDelete, sampleInsert, sampleInsert]])
        [Pick.main 0, Pick.main 0, Pick.main 0, Pick.unit 0 0, Pick.exec 0 0 [],
          Pick.unit 0 0, Pick.main 0, Pick.main 0, Pick.unit 0 1, Pick.unit 0 0,
          Pick.unit 0 0, Pick.unit 0 0, Pick.unit 0 0, Pick.main 0, Pick.main 0,
          Pick.unit 0 2]).map
        (fun w => (w.panicked, w.unitsOf 0, w.inFlight 0))
      = some (false, [UnitPc.finished, UnitPc.call, UnitPc.call], 2) := by
  decide

/-- Claim C8 on the code: two calls of `Bulk`, the first with two delete requests, the
second with one, one worker, every statement succeeding.  The first call returns
`(nil, nil)` and gives the gate back while its second unit has not run; the second call
then enters, and its statement is executed between the two statements of the first
call. -/
theorem Bulk_batches_interleave :
    (run { conn := okConn, thread := 1 }
        (World.start [[sampleDelete, sampleDelete], [sampleDelete]])
        [Pick.main 0, Pick.main 0, Pick.main 0, Pick.unit 0 0, Pick.exec 0 0 [],
          Pick.unit 0 0, Pick.unit 0 0, Pick.main 0, Pick.main 0, Pick.main 0, Pick.main 0,
          Pick.main 0, Pick.main 1, Pick.main 1, Pick.main 1, Pick.unit 1 0,
          Pick.exec 1 0 [], Pick.unit 0 1, Pick.exec 0 1 []]).map
        (fun w => (w.panicked, w.result 0, w.order))
      = some (false, some none, [(0, 0), (1, 0), (0, 1)]) := by
  decide


/-! ## The gate admits one caller at a time -/

theorem countP_set_of_get (p : Call → Bool) (l : List Call) (k : Nat) (x y : Call)
    (h : l.get? k = some x) :
    (l.set k y).countP p + (if p x then 1 else 0) = l.countP p + (if p y then 1 else 0) := by
  induction l generalizing k with
  | nil => simp at h
  | cons a l ih =>
    cases k with
    | zero =>
      simp only [List.get?_cons_zero, Option.some.injEq] at h
      subst h
      simp only [List.set_cons_zero, List.countP_cons]
      omega
    | succ k =>
      simp only [List.get?_cons_succ] at h
      have := ih k h
      simp only [List.set_cons_succ, List.countP_cons]
      omega

theorem stepUnit_pc (x y : Call) (i : Nat) (b : Bool) (h : stepUnit x i = some (y, b)) :
    y.pc = x.pc := by
  unfold stepUnit at h
  split at h
  · simp at h
  · split at h <;> (try split at h) <;> simp at h <;> (rw [← h.1])

theorem execUnit_pc (c : Client) (x y : Call) (i : Nat) (ord : List (String × Value))
    (made : List DbCall) (h : execUnit c x i ord = some (y, made)) : y.pc = x.pc := by
  unfold execUnit at h
  split at h
  · split at h
    · split at h <;> simp at h <;> (rw [← h.1])
    · simp at h
  · simp at h

theorem holdsGate_loopHead (x : Call) (i : Nat) (z : Call) (hz : z.pc = x.loopHead i) :
    z.holdsGate = true := by
  unfold Call.holdsGate
  rw [hz]
  unfold Call.loopHead
  by_cases h : i < x.reqs.length <;> simp [h]

theorem holdsGate_congr (x y : Call) (h : y.pc = x.pc) : y.holdsGate = x.holdsGate := by
  unfold Call.holdsGate
  rw [h]

theorem stepMain_gate (c : Client) (m m1 : Nat) (x y : Call)
    (h : stepMain c m x = some (m1, y)) :
    m1 + (if x.holdsGate then 1 else 0) = m + (if y.holdsGate then 1 else 0)
      ∧ (m ≤ 1 → m1 ≤ 1) := by
  unfold stepMain at h
  split at h
  next hpc =>
    split at h
    · simp only [Option.some.injEq, Prod.mk.injEq] at h
      have hx : x.holdsGate = false := by simp [Call.holdsGate, hpc]
      have hy : y.holdsGate = true := holdsGate_loopHead x 0 y (by rw [← h.2])
      rw [hx, hy, ← h.1]
      simp
      omega
    · simp at h
  next i hpc =>
    split at h
    · simp only [Option.some.injEq, Prod.mk.injEq] at h
      have hx : x.holdsGate = true := by simp [Call.holdsGate, hpc]
      have hy : y.holdsGate = true := by rw [← h.2]; simp [Call.holdsGate]
      rw [hx, hy, ← h.1]
      simp
    · simp at h
  next i hpc =>
    simp only [Option.some.injEq, Prod.mk.injEq] at h
    have hx : x.holdsGate = true := by simp [Call.holdsGate, hpc]
    have hy : y.holdsGate = true := holdsGate_loopHead x (i + 1) y (by rw [← h.2])
    rw [hx, hy, ← h.1]
    simp
  next hpc =>
    split at h
    · simp only [Option.some.injEq, Prod.mk.injEq] at h
      have hx : x.holdsGate = true := by simp [Call.holdsGate, hpc]
      have hy : y.holdsGate = true := by rw [← h.2]; simp [Call.holdsGate]
      rw [hx, hy, ← h.1]
      simp
    · simp at h
  next hpc =>
    have hx : x.holdsGate = true := by simp [Call.holdsGate, hpc]
    split at h
    · simp only [Option.some.injEq, Prod.mk.injEq] at h
      have hy : y.holdsGate = true := by rw [← h.2]; simp [Call.holdsGate]
      rw [hx, hy, ← h.1]
      simp
    · simp only [Option.some.injEq, Prod.mk.injEq] at h
      have hy : y.holdsGate = true := by rw [← h.2]; simp [Call.holdsGate]
      rw [hx, hy, ← h.1]
      simp
  next hpc =>
    split at h
    · simp only [Option.some.injEq, Prod.mk.injEq] at h
      have hx : x.holdsGate = true := by simp [Call.holdsGate, hpc]
      have hy : y.holdsGate = false := by rw [← h.2]; simp [Call.holdsGate]
      rw [hx, hy, ← h.1]
      simp
      omega
    · simp at h
  next err hpc => simp at h

theorem step_gate (c : Client) (w w1 : World) (p : Pick) (h : step c w p = some w1)
    (hinv : w.calls.countP Call.holdsGate = w.m ∧ w.m ≤ 1) :
    w1.calls.countP Call.holdsGate = w1.m ∧ w1.m ≤ 1 := by
  unfold step at h
  split at h
  · simp at h
  · split at h
    next k =>
      split at h
      · simp at h
      next x hx =>
        split at h
        · simp at h
        next m1 y hs =>
          simp only [Option.some.injEq] at h
          have hg := stepMain_gate c w.m m1 x y hs
          have hc := countP_set_of_get Call.holdsGate w.calls k x y hx
          rw [← h]
          simp only
          constructor
          · omega
          · exact hg.2 hinv.2
    next k i =>
      split at h
      · simp at h
      next x hx =>
        split at h
        · simp at h
        next y b hs =>
          simp only [Option.some.injEq] at h
          have hg := holdsGate_congr x y (stepUnit_pc x y i b hs)
          have hc := countP_set_of_get Call.holdsGate w.calls k x y hx
          rw [← h]
          simp only
          rw [hg] at hc
          constructor
          · omega
          · exact hinv.2
    next k i ord =>
      split at h
      · simp at h
      next x hx =>
        split at h
        · simp at h
        next y made hs =>
          simp only [Option.some.injEq] at h
          have hg := holdsGate_congr x y (execUnit_pc c x y i ord made hs)
          have hc := countP_set_of_get Call.holdsGate w.calls k x y hx
          rw [← h]
          simp only
          rw [hg] at hc
          constructor
          · omega
          · exact hinv.2

theorem run_gate (c : Client) (sched : List Pick) (w w1 : World)
    (h : run c w sched = some w1)
    (hinv : w.calls.countP Call.holdsGate = w.m ∧ w.m ≤ 1) :
    w1.calls.countP Call.holdsGate = w1.m ∧ w1.m ≤ 1 := by
  induction sched generalizing w with
  | nil =>
    simp only [run, Option.some.injEq] at h
    rw [← h]; exact hinv
  | cons p ps ih =>
    simp only [run] at h
    split at h
    · simp at h
    next w2 hs => exact ih w2 h (step_gate c w w2 p hs hinv)

/-- In every state the process reaches from the start of any number of `Bulk` calls,
under every schedule, at most one call has run its `m <- true` (line 69) without having
run its `<-m` (line 107). -/
theorem gate_admits_one (c : Client) (bs : List (List BulkRequest)) (sched : List Pick)
    (w : World) (h : run c (World.start bs) sched = some w) :
    w.calls.countP Call.holdsGate ≤ 1 := by
  have h0 : (World.start bs).calls.countP Call.holdsGate = (World.start bs).m
      ∧ (World.start bs).m ≤ 1 := by
    constructor
    · simp only [World.start]
      rw [List.countP_eq_zero]
      intro x hx
      obtain ⟨reqs, _, rfl⟩ := List.mem_map.1 hx
      simp [Call.holdsGate, Call.enter]
    · simp [World.start]
  have := run_gate c sched _ w h h0
  omega

/-- A run in which no unit fails and every unit runs to its end before the caller reaches
`wg.Wait()`: `Bulk` returns `(nil, nil)`, the gate is empty again, every unit has
finished, and the statements were executed in the order of the batch. -/
theorem Bulk_run_without_failure :
    (run { conn := okConn, thread := 1 } (World.start [[sampleDelete, sampleInsert]])
        [Pick.main 0, Pick.main 0, Pick.main 0, Pick.unit 0 0, Pick.exec 0 0 [],
          Pick.unit 0 0, Pick.unit 0 0, Pick.main 0, Pick.main 0, Pick.unit 0 1,
          Pick.exec 0 1 [("age", Value.int 7), ("name", Value.str "a")], Pick.unit 0 1,
          Pick.unit 0 1, Pick.main 0, Pick.main 0, Pick.main 0]).map
        (fun w => (w.panicked, w.result 0, w.m))
      = some (false, some none, 0)
    ∧ (run { conn := okConn, thread := 1 } (World.start [[sampleDelete, sampleInsert]])
        [Pick.main 0, Pick.main 0, Pick.main 0, Pick.unit 0 0, Pick.exec 0 0 [],
          Pick.unit 0 0, Pick.unit 0 0, Pick.main 0, Pick.main 0, Pick.unit 0 1,
          Pick.exec 0 1 [("age", Value.int 7), ("name", Value.str "a")], Pick.unit 0 1,
          Pick.unit 0 1, Pick.main 0, Pick.main 0, Pick.main 0]).map
        (fun w => (w.inFlight 0, w.order))
      = some (0, [(0, 0), (0, 1), (0, 1), (0, 1)]) := by
  decide

end mysql
